import Mathlib

/-!
Verification development for the grok2api_cf gateway core.

This file gives a shallow embedding, in Lean 4, of the parts of the
repository that the checked properties talk about:

* the cross-chunk `TagFilter` (src/unnamed/part_001, class TagFilter);
* the NDJSON → OpenAI-SSE streaming transcoder
  `createOpenAiStreamFromGrokNdjson` (src/unnamed/part_001);
* the batch task manager and its SSE bridge (src/unnamed/part_000);
* the settings `cf_clearance` normalization (src/src/settings.ts);
* the request-log statistics scan `getRequestStats` (src/src/repo/logs.ts).

JavaScript strings are modelled by Lean `String`; every string operation
the source uses (`startsWith`, `endsWith`, `includes`, `trim`, `split`,
`toLowerCase`, `replace`) is implemented here over the underlying
character list so that all definitions evaluate inside the kernel.
Calls to the platform URL parser (`new URL`) are modelled by an oracle
carried alongside the raw string in the input data (`Option ParsedUrl`
fields): the oracle is `some p` exactly when the parser would succeed,
with `p` holding the parsed components.
-/

/-- `jsStartsWith s pre` models JavaScript `s.startsWith(pre)`. -/
def jsStartsWith (s pre : String) : Bool :=
  pre.data.isPrefixOf s.data

/-- `jsEndsWith s suf` models JavaScript `s.endsWith(suf)`. -/
def jsEndsWith (s suf : String) : Bool :=
  suf.data.isSuffixOf s.data

/-- Substring search over character lists (helper for `jsIncludes`). -/
def subListIn (pat : List Char) : List Char → Bool
  | [] => pat.isEmpty
  | c :: cs => pat.isPrefixOf (c :: cs) || subListIn pat cs

/-- `jsIncludes s pat` models JavaScript `s.includes(pat)`. -/
def jsIncludes (s pat : String) : Bool :=
  subListIn pat.data s.data

/-- Code points JavaScript `String.prototype.trim` treats as whitespace. -/
def jsWsCodes : List Nat :=
  [9, 10, 11, 12, 13, 32, 160, 0x1680, 0x2000, 0x2001, 0x2002, 0x2003,
   0x2004, 0x2005, 0x2006, 0x2007, 0x2008, 0x2009, 0x200A, 0x2028,
   0x2029, 0x202F, 0x205F, 0x3000, 0xFEFF]

/-- Whitespace test used by the `trim` model. -/
def isJsWs (c : Char) : Bool := jsWsCodes.contains c.toNat

/-- `jsTrimL l` trims JS whitespace from both ends of a character list. -/
def jsTrimL (l : List Char) : List Char :=
  ((l.dropWhile isJsWs).reverse.dropWhile isJsWs).reverse

/-- `jsTrim s` models JavaScript `s.trim()`. -/
def jsTrim (s : String) : String := String.mk (jsTrimL s.data)

/-- ASCII lowering of one character (model of `toLowerCase` per char). -/
def jsCharLower (c : Char) : Char :=
  if 'A' ≤ c && c ≤ 'Z' then Char.ofNat (c.toNat + 32) else c

/-- `jsToLower s` models JavaScript `s.toLowerCase()` (ASCII range). -/
def jsToLower (s : String) : String := String.mk (s.data.map jsCharLower)

/-- Split a character list on the comma character (model of `split(",")`). -/
def splitCommaL : List Char → List (List Char)
  | [] => [[]]
  | c :: cs =>
    let r := splitCommaL cs
    if c = ',' then [] :: r
    else match r with
      | [] => [[c]]
      | g :: gs => (c :: g) :: gs

/-- `jsSplitComma s` models JavaScript `s.split(",")`. -/
def jsSplitComma (s : String) : List String :=
  (splitCommaL s.data).map String.mk

/-- Characters of `s` with every newline removed
(model of `s.replace(/\n/g, "")`). -/
def removeNewlines (s : String) : String :=
  String.mk (s.data.filter (fun c => c ≠ '\n'))

/-!
## Tag filter

Shallow embedding of `class TagFilter` (src/unnamed/part_001 lines 58–174).
The mutable fields `inFilterTag`, `tagBuffer`, `pendingPrefix` become the
record `TagState`; the character loop of `filter` becomes `stepChar`
folded over the token's characters.
-/

/-- State of the cross-token tag filter: `(inFilterTag, tagBuffer, pendingBuf)`,
where `pendingBuf` embeds the source field `pendingPrefix`. -/
structure TagState where
  inFilterTag : Bool
  tagBuffer : String
  pendingBuf : String
deriving DecidableEq, Repr

/-- Initial filter state (all fields cleared). -/
def initTagState : TagState := ⟨false, "", ""⟩

/-- Constructor normalization `filterTags.filter(Boolean)`: drop empty names. -/
def mkTagList (filterTags : List String) : List String :=
  filterTags.filter (fun t => t ≠ "")

/-- One iteration of the character loop of `TagFilter.filter`, returning the
next state and the text emitted for this character. -/
def stepChar (tags : List String) (st : TagState) (c : Char) : TagState × String :=
  if st.pendingBuf ≠ "" then
    let p := st.pendingBuf.push c
    if tags.any (fun t => jsStartsWith p ("<" ++ t)) then
      (⟨true, p, ""⟩, "")
    else if tags.any (fun t => jsStartsWith ("<" ++ t) p) then
      ({ st with pendingBuf := p }, "")
    else
      ({ st with pendingBuf := "" }, p)
  else if st.inFilterTag then
    let b := st.tagBuffer.push c
    if c = '>' then
      if jsEndsWith b "/>" then
        ({ st with inFilterTag := false, tagBuffer := "" }, "")
      else if tags.any (fun t => jsIncludes b ("</" ++ t ++ ">")) then
        ({ st with inFilterTag := false, tagBuffer := "" }, "")
      else ({ st with tagBuffer := b }, "")
    else ({ st with tagBuffer := b }, "")
  else if c = '<' then
    ({ st with pendingBuf := "<" }, "")
  else (st, String.singleton c)

/-- Fold `stepChar` over a character list, concatenating the emissions. -/
def filterChars (tags : List String) (st : TagState) : List Char → TagState × String
  | [] => (st, "")
  | c :: cs =>
    let r1 := stepChar tags st c
    let r2 := filterChars tags r1.1 cs
    (r2.1, r1.2 ++ r2.2)

/-- `TagFilter.filter(token)`: with no configured tags the token passes
through unchanged; otherwise the character loop runs. -/
def filterToken (tags : List String) (st : TagState) (token : String) : TagState × String :=
  if tags = [] then (st, token) else filterChars tags st token.data

/-- `TagFilter.flush()`: return and clear the pending prefix buffer. -/
def tagFlush (st : TagState) : TagState × String :=
  ({ st with pendingBuf := "" }, st.pendingBuf)

/-- Outputs of feeding a token sequence through one filter instance. -/
def filterTokens (tags : List String) (st : TagState) : List String → TagState × List String
  | [] => (st, [])
  | t :: ts =>
    let r1 := filterToken tags st t
    let r2 := filterTokens tags r1.1 ts
    (r2.1, r1.2 :: r2.2)

/-!
## Asset URL rewriting

Embeddings of `base64UrlEncode`, `encodeAssetPath`, `toImgProxyUrl`,
`buildVideoTag` / `buildVideoPosterPreview` / `buildVideoHtml` and
`normalizeGeneratedAssetUrls` (src/unnamed/part_001 lines 229–297).
-/

/-- UTF-8 encoding of one code point, as a list of byte values. -/
def utf8EncodeCp (n : Nat) : List Nat :=
  if n < 0x80 then [n]
  else if n < 0x800 then [0xC0 + n / 64, 0x80 + n % 64]
  else if n < 0x10000 then
    [0xE0 + n / 4096, 0x80 + n / 64 % 64, 0x80 + n % 64]
  else
    [0xF0 + n / 262144, 0x80 + n / 4096 % 64, 0x80 + n / 64 % 64, 0x80 + n % 64]

/-- UTF-8 bytes of a string (model of `new TextEncoder().encode(s)`). -/
def utf8BytesOf (s : String) : List Nat :=
  (s.data.map (fun c => utf8EncodeCp c.toNat)).flatten

/-- The standard base64 alphabet. -/
def b64Alpha : String :=
  "ABCDEFGHIJKLMNOPQRSTUVWXYZabcdefghijklmnopqrstuvwxyz0123456789+/"

/-- Character of the standard base64 alphabet at a 6-bit index. -/
def b64CharAt (n : Nat) : Char := b64Alpha.data.getD n 'A'

/-- Standard base64 (`btoa`) over a byte list, with `=` padding. -/
def b64Enc : List Nat → List Char
  | [] => []
  | [a] => [b64CharAt (a / 4), b64CharAt (a % 4 * 16), '=', '=']
  | [a, b] => [b64CharAt (a / 4), b64CharAt (a % 4 * 16 + b / 16), b64CharAt (b % 16 * 4), '=']
  | a :: b :: c :: rest =>
    [b64CharAt (a / 4), b64CharAt (a % 4 * 16 + b / 16),
     b64CharAt (b % 16 * 4 + c / 64), b64CharAt (c % 64)] ++ b64Enc rest

/-- `base64UrlEncode`: `btoa` over UTF-8 bytes, then `+`→`-`, `/`→`_`,
and trailing `=` stripped. -/
def base64UrlEncode (s : String) : String :=
  let std := b64Enc (utf8BytesOf s)
  let repl := std.map (fun c => if c = '+' then '-' else if c = '/' then '_' else c)
  String.mk ((repl.reverse.dropWhile (fun c => c = '=')).reverse)

/-- Components of a successfully parsed absolute URL. This is the oracle for
the platform call `new URL(raw)`: wherever the source parses a URL, the
input data carries `some p` (parse succeeded, `p.href = u.toString()`)
or `none` (the constructor threw). -/
structure ParsedUrl where
  href : String
  pathname : String
  search : String
  hash : String
deriving DecidableEq, Repr

/-- `encodeAssetPath(raw)`: `u_` + base64url of the full URL when `raw`
parses as an absolute URL, else `p_` + base64url of the `/`-prefixed path. -/
def encodeAssetPath (raw : String) (parsed : Option ParsedUrl) : String :=
  match parsed with
  | some u => "u_" ++ base64UrlEncode u.href
  | none =>
    let p := if jsStartsWith raw "/" then raw else "/" ++ raw
    "p_" ++ base64UrlEncode p

/-- `toImgProxyUrl(global, origin, path)`:
`(global.base_url ?? "").trim() || origin` + `/images/` + path. -/
def toImgProxyUrl (baseUrl origin path : String) : String :=
  (if jsTrim baseUrl = "" then origin else jsTrim baseUrl) ++ "/images/" ++ path

/-- Model of `s.replace(/"/g, "&quot;")`. -/
def escQuotes (s : String) : String :=
  String.mk (s.data.flatMap (fun c => if c = '"' then "&quot;".data else [c]))

/-- `buildVideoTag(src)`: the bare `<video>` element. -/
def buildVideoTag (src : String) : String :=
  "<video src=\"" ++ src ++ "\" controls=\"controls\" width=\"500\" height=\"300\"></video>\n"

/-- `buildVideoPosterPreview(videoUrl, posterUrl)`: clickable poster block. -/
def buildVideoPosterPreview (videoUrl : String) (posterUrl : Option String) : String :=
  let href := escQuotes videoUrl
  let poster := escQuotes (posterUrl.getD "")
  if href = "" then ""
  else if poster = "" then
    "<a href=\"" ++ href ++ "\" target=\"_blank\" rel=\"noopener noreferrer\">" ++ href ++ "</a>\n"
  else
    "<a href=\"" ++ href ++ "\" target=\"_blank\" rel=\"noopener noreferrer\" style=\"display:inline-block;position:relative;max-width:100%;text-decoration:none;\">\n  <img src=\"" ++ poster ++ "\" alt=\"video\" style=\"max-width:100%;height:auto;border-radius:12px;display:block;\" />\n  <span style=\"position:absolute;inset:0;display:flex;align-items:center;justify-content:center;\">\n    <span style=\"width:64px;height:64px;border-radius:9999px;background:rgba(0,0,0,.55);display:flex;align-items:center;justify-content:center;\">\n      <span style=\"width:0;height:0;border-top:12px solid transparent;border-bottom:12px solid transparent;border-left:18px solid #fff;margin-left:4px;\"></span>\n    </span>\n  </span>\n</a>\n"

/-- `buildVideoHtml`: poster preview when configured, else the bare tag. -/
def buildVideoHtml (src : String) (poster : Option String) (posterPreview : Bool) : String :=
  if posterPreview then buildVideoPosterPreview src poster else buildVideoTag src

/-- One element of a `generatedImageUrls` array: a non-string JSON value,
or a string with the URL-parse oracle for its trimmed form. -/
inductive GenUrlItem where
  | nonStr
  | strv (raw : String) (parsed : Option ParsedUrl)
deriving DecidableEq, Repr

/-- The raw `generatedImageUrls` field: not an array, or an array of items. -/
inductive GenUrls where
  | notArr
  | arr (items : List GenUrlItem)
deriving DecidableEq, Repr

/-- Item loop of `normalizeGeneratedAssetUrls`: keep non-empty trimmed
strings, drop `"/"`, drop parsed URLs with bare-root pathname and no
query/hash. The parse oracle travels with each kept string. -/
def normItems : List GenUrlItem → List (String × Option ParsedUrl)
  | [] => []
  | .nonStr :: rest => normItems rest
  | .strv raw parsed :: rest =>
    let s := jsTrim raw
    if s = "" then normItems rest
    else if s = "/" then normItems rest
    else match parsed with
      | some u =>
        if u.pathname = "/" && u.search = "" && u.hash = "" then normItems rest
        else (s, some u) :: normItems rest
      | none => (s, none) :: normItems rest

/-- `normalizeGeneratedAssetUrls(input)`: `[]` for non-arrays. -/
def normalizeGeneratedAssetUrls : GenUrls → List (String × Option ParsedUrl)
  | .notArr => []
  | .arr items => normItems items

/-!
## Streaming transcoder

Shallow embedding of `createOpenAiStreamFromGrokNdjson`
(src/unnamed/part_001 lines 299–619).  The upstream is modelled as a list
of loop iterations: each `IterEvent` carries the clock value `Date.now()`
observed at the top of that iteration and the outcome of the
`readWithTimeout` race, a read outcome being a decoded chunk (given as
the complete NDJSON lines it completes, each already parsed — `none` for
lines that `JSON.parse` rejects and that the source skips), upstream EOF,
a timer win, or a rejected read carrying its error message.  Controller
pushes and the `onFinish` callback become elements of an output event
list; `onFinish` is modelled as always supplied.
-/

/-- One search citation of `webSearchResults.results`. Fields are `some`
exactly when the corresponding property is a string. -/
structure WebResult where
  title : Option String
  url : Option String
  preview : Option String
deriving DecidableEq, Repr

/-- A `streamingVideoGenerationResponse` frame payload. `progress` is
`some` when the property is a number; the string fields are `some` when
they are strings. The `*Parsed` fields are the `new URL` oracles for the
corresponding raw strings. -/
structure VideoResp where
  progress : Option Int
  videoUrl : Option String
  thumbnailImageUrl : Option String
  videoUrlParsed : Option ParsedUrl
  thumbParsed : Option ParsedUrl
deriving DecidableEq, Repr

/-- The `token` property: absent (or another non-handled type), a string,
or an array (ignored by the source in text mode). -/
inductive TokenVal where
  | absent
  | str (s : String)
  | arr
deriving DecidableEq, Repr

/-- The relevant parts of `result.response` of one parsed NDJSON frame.
Boolean fields model JavaScript truthiness of the corresponding property;
`webResults` is `some` exactly when `webSearchResults.results` is an
array. `modelResponse` carries only its `generatedImageUrls` field, the
only one the streaming path reads. -/
structure GrokResponse where
  userRespModel : Option String
  video : Option VideoResp
  imageAttachmentInfo : Bool
  token : TokenVal
  modelResponse : Option GenUrls
  isThinking : Bool
  messageTag : Option String
  toolUsageCardId : Bool
  webResults : Option (List WebResult)
deriving DecidableEq, Repr

/-- A response with every optional shape absent. -/
def emptyResponse : GrokResponse :=
  ⟨none, none, false, .absent, none, false, none, false, none⟩

/-- One parsed NDJSON frame: `error.message` (present iff truthy) and
`result.response`. -/
structure GrokFrame where
  errMsg : Option String
  response : Option GrokResponse
deriving DecidableEq, Repr

/-- `finish_reason` values a chunk can carry. -/
inductive FinishR where
  | stop
  | error
deriving DecidableEq, Repr

/-- Observable output of a transcoder run: an SSE chunk (its `model`,
delta `content` and `finish_reason`), the `[DONE]` sentinel, or an
invocation of the `onFinish` callback with its reported status. -/
inductive OutEvent where
  | chunk (model : String) (content : String) (finish : Option FinishR)
  | doneMark
  | finishCb (status : Nat)
deriving DecidableEq, Repr

/-- Outcome of one `readWithTimeout` race. -/
inductive ReadEvent where
  | value (lines : List (Option GrokFrame))
  | eof
  | timeout
  | raise (msg : String)
deriving DecidableEq, Repr

/-- One loop iteration of the upstream trace: the clock at the top of the
iteration and the read outcome (reached only if no deadline fires). -/
structure IterEvent where
  now : Int
  read : ReadEvent
deriving DecidableEq, Repr

/-- Configuration derived at stream start (lines 309–327 of the source):
filter tags, `show_thinking`, the four timeout budgets plus the video
idle budget (milliseconds), poster-preview flag, URL bases, start time. -/
structure StreamCfg where
  filteredTags : List String
  showThinking : Bool
  firstMs : Int
  chunkMs : Int
  totalMs : Int
  idleMs : Int
  videoIdleMs : Int
  posterPreview : Bool
  baseUrl : String
  origin : String
  startTime : Int
deriving DecidableEq, Repr

/-- The optional `GrokSettings` fields the transcoder reads. -/
structure GrokSettingsM where
  filtered_tags : Option String := none
  show_thinking : Option Bool := none
  video_poster_preview : Option Bool := none
  stream_first_response_timeout : Option Int := none
  stream_chunk_timeout : Option Int := none
  stream_total_timeout : Option Int := none
  stream_idle_timeout : Option Int := none
  video_idle_timeout : Option Int := none
deriving DecidableEq, Repr

/-- Derivation of `StreamCfg` from settings (source lines 316–327):
`filtered_tags` split on commas, trimmed, empties dropped;
`show_thinking !== false`; timeouts `Math.max(0, (x ?? default) * 1000)`;
`video_poster_preview === true`. -/
def mkStreamCfg (s : GrokSettingsM) (baseUrl origin : String) (startTime : Int) : StreamCfg :=
  { filteredTags := ((jsSplitComma (s.filtered_tags.getD "")).map jsTrim).filter (fun t => t ≠ "")
  , showThinking := s.show_thinking.getD true
  , firstMs := max 0 (s.stream_first_response_timeout.getD 30 * 1000)
  , chunkMs := max 0 (s.stream_chunk_timeout.getD 120 * 1000)
  , totalMs := max 0 (s.stream_total_timeout.getD 600 * 1000)
  , idleMs := max 0 (s.stream_idle_timeout.getD 45 * 1000)
  , videoIdleMs := max 0 (s.video_idle_timeout.getD 90 * 1000)
  , posterPreview := s.video_poster_preview.getD false
  , baseUrl := baseUrl, origin := origin, startTime := startTime }

/-- Mutable loop state of the transcoder (source lines 341–356). -/
structure ConvState where
  finalStatus : Nat
  firstReceived : Bool
  lastChunkTime : Int
  currentModel : String
  isImage : Bool
  isVideo : Bool
  isThinking : Bool
  thinkingFinished : Bool
  videoProgressStarted : Bool
  lastVideoProgress : Int
  tagSt : TagState
deriving DecidableEq, Repr

/-- The hard-coded initial model name. -/
def defaultModelName : String := "grok-4-mini-thinking-tahoe"

/-- Initial loop state. -/
def initConv (cfg : StreamCfg) : ConvState :=
  { finalStatus := 200, firstReceived := false, lastChunkTime := cfg.startTime
  , currentModel := defaultModelName, isImage := false, isVideo := false
  , isThinking := false, thinkingFinished := false, videoProgressStarted := false
  , lastVideoProgress := -1, tagSt := initTagState }

/-- Result of processing a piece of input: either the stream terminated
(`halt`, with all remaining output including the final `onFinish`), or
processing continues with a new state and the output emitted so far. -/
inductive StepOut where
  | halt (out : List OutEvent)
  | cont (s : ConvState) (out : List OutEvent)
deriving DecidableEq, Repr

/-- The thinking-progress line for a video frame (source lines 458–466). -/
def videoThinkMsg (progress : Int) (started : Bool) : String :=
  if !started then "<think>视频已生成" ++ toString progress ++ "%\n"
  else if progress < 100 then "视频已生成" ++ toString progress ++ "%\n"
  else "视频已生成" ++ toString progress ++ "%</think>\n"

/-- Handling of a `streamingVideoGenerationResponse` frame
(source lines 448–497): mark video mode, maybe emit a progress line,
maybe emit the video HTML chunk; the frame never terminates the stream. -/
def procVideo (cfg : StreamCfg) (s0 : ConvState) (v : VideoResp) : ConvState × List OutEvent :=
  let s := { s0 with isVideo := true }
  let progress := v.progress.getD 0
  let videoUrl := v.videoUrl.getD ""
  let thumbUrl := v.thumbnailImageUrl.getD ""
  let r1 : ConvState × List OutEvent :=
    if progress > s.lastVideoProgress then
      let s1 := { s with lastVideoProgress := progress }
      if cfg.showThinking then
        let msg := videoThinkMsg progress s1.videoProgressStarted
        let s2 := if !s1.videoProgressStarted then { s1 with videoProgressStarted := true } else s1
        (s2, [.chunk s2.currentModel msg none])
      else (s1, [])
    else (s, [])
  let out2 : List OutEvent :=
    if videoUrl ≠ "" then
      let src := toImgProxyUrl cfg.baseUrl cfg.origin (encodeAssetPath videoUrl v.videoUrlParsed)
      let poster : Option String :=
        if thumbUrl ≠ "" then
          some (toImgProxyUrl cfg.baseUrl cfg.origin (encodeAssetPath thumbUrl v.thumbParsed))
        else none
      [.chunk r1.1.currentModel (buildVideoHtml src poster cfg.posterPreview) none]
    else []
  (r1.1, r1.2 ++ out2)

/-- One search citation line (source line 550), with newlines removed
from the preview. -/
def webResultLine (r : WebResult) : String :=
  "\n- [" ++ r.title.getD "" ++ "](" ++ r.url.getD "" ++ " \"" ++
    removeNewlines (r.preview.getD "") ++ "\")"

/-- Concatenated citation lines for a result list. -/
def webResultsAppend (rs : List WebResult) : String :=
  String.join (rs.map webResultLine)

/-- Text-mode handling of a filtered non-empty token (source lines
535–576): web-search citations, `header` wrapping, thinking bracketing,
and the `isThinking` update. -/
def procText (cfg : StreamCfg) (s : ConvState) (g : GrokResponse) (curThink : Bool)
    (tok : String) : StepOut :=
  let searchR : Option String :=
    if g.toolUsageCardId && g.webResults.isSome then
      if curThink then
        if cfg.showThinking then
          some (tok ++ webResultsAppend (g.webResults.getD []) ++ "\n")
        else none
      else none
    else some tok
  match searchR with
  | none => .cont s []
  | some tokS =>
    let content0 := if g.messageTag = some "header" then "\n\n" ++ tokS ++ "\n\n" else tokS
    if !s.isThinking && curThink then
      if cfg.showThinking then
        .cont { s with isThinking := curThink }
          [.chunk s.currentModel ("<think>\n" ++ content0) none]
      else .cont { s with isThinking := curThink } []
    else if s.isThinking && !curThink then
      let content := if cfg.showThinking then "\n</think>\n" ++ content0 else content0
      .cont { s with thinkingFinished := true, isThinking := curThink }
        [.chunk s.currentModel content none]
    else if curThink && !cfg.showThinking then
      .cont { s with isThinking := curThink } []
    else
      .cont { s with isThinking := curThink } [.chunk s.currentModel content0 none]

/-- Per-frame handling (source lines 426–576). Sets `firstReceived` and
`lastChunkTime`, then dispatches on the frame shape. -/
def procFrame (cfg : StreamCfg) (now : Int) (s0 : ConvState) (f : GrokFrame) : StepOut :=
  let s1 : ConvState := { s0 with firstReceived := true, lastChunkTime := now }
  match f.errMsg with
  | some m =>
    .halt [.chunk s1.currentModel ("Error: " ++ m) (some .stop), .doneMark, .finishCb 500]
  | none =>
    match f.response with
    | none => .cont s1 []
    | some g =>
      let s2 : ConvState :=
        match g.userRespModel with
        | some m => if jsTrim m ≠ "" then { s1 with currentModel := jsTrim m } else s1
        | none => s1
      match g.video with
      | some v =>
        let r := procVideo cfg s2 v
        .cont r.1 r.2
      | none =>
        let s3 : ConvState := if g.imageAttachmentInfo then { s2 with isImage := true } else s2
        if s3.isImage then
          match g.modelResponse with
          | some urlsRaw =>
            let urls := normalizeGeneratedAssetUrls urlsRaw
            if urls ≠ [] then
              let content := String.intercalate "\n" (urls.map (fun u =>
                "![Generated Image](" ++
                  toImgProxyUrl cfg.baseUrl cfg.origin (encodeAssetPath u.1 u.2) ++ ")"))
              .halt [.chunk s3.currentModel content (some .stop), .doneMark,
                     .finishCb s3.finalStatus]
            else .cont s3 []
          | none =>
            match g.token with
            | .str tok =>
              if tok ≠ "" then .cont s3 [.chunk s3.currentModel tok none] else .cont s3 []
            | _ => .cont s3 []
        else
          match g.token with
          | .str rawTok =>
            if rawTok = "" then .cont s3 []
            else
              let fr := filterToken (mkTagList cfg.filteredTags) s3.tagSt rawTok
              let s4 : ConvState := { s3 with tagSt := fr.1 }
              if fr.2 = "" then .cont s4 []
              else if s4.thinkingFinished && g.isThinking then .cont s4 []
              else procText cfg s4 g g.isThinking fr.2
          | _ => .cont s3 []

/-- Process the complete lines delivered by one read (inner `while` of
source lines 413–577); `none` lines are the ones `JSON.parse` rejects. -/
def procLines (cfg : StreamCfg) (now : Int) (s : ConvState) :
    List (Option GrokFrame) → StepOut
  | [] => .cont s []
  | none :: ls => procLines cfg now s ls
  | some f :: ls =>
    match procFrame cfg now s f with
    | .halt out => .halt out
    | .cont s' out =>
      match procLines cfg now s' ls with
      | .halt out2 => .halt (out ++ out2)
      | .cont s2 out2 => .cont s2 (out ++ out2)

/-- `flushStop` followed by `onFinish` and `close` (the clean-stop ending). -/
def flushOut (s : ConvState) : List OutEvent :=
  [.chunk s.currentModel "" (some .stop), .doneMark, .finishCb s.finalStatus]

/-- Classifier `isHttp2StreamError` (src/unnamed/part_001 lines 38–45). -/
def isHttp2StreamErrorStr (msg : String) : Bool :=
  let l := jsToLower msg
  jsIncludes l "http/2" || jsIncludes l "curl: (92)" || jsIncludes l "stream"

/-- One iteration of the main loop (source lines 365–409 plus the
terminal handling of lines 580–609): deadline checks in source order,
the per-read timeout, then the read outcome. -/
def stepIter (cfg : StreamCfg) (s : ConvState) (e : IterEvent) : StepOut :=
  let elapsed := e.now - cfg.startTime
  if s.firstReceived = false ∧ cfg.firstMs < elapsed then .halt (flushOut s)
  else if 0 < cfg.totalMs ∧ cfg.totalMs < elapsed then .halt (flushOut s)
  else
    let idleEl := e.now - s.lastChunkTime
    let curIdle := if s.isVideo then cfg.videoIdleMs else cfg.idleMs
    if s.firstReceived = true ∧ 0 < curIdle ∧ curIdle < idleEl then
      .halt (flushOut s)
    else if s.firstReceived = true ∧ cfg.chunkMs < idleEl then .halt (flushOut s)
    else
      let base := if s.firstReceived then cfg.chunkMs else cfg.firstMs
      let per := if cfg.totalMs > 0 then min base (max 0 (cfg.totalMs - elapsed)) else base
      if per ≤ 0 then .halt (flushOut s)
      else
        match e.read with
        | .timeout => .halt (flushOut s)
        | .eof => .halt (flushOut s)
        | .raise msg =>
          if isHttp2StreamErrorStr msg then
            .halt [.chunk s.currentModel "" (some .stop), .doneMark, .finishCb 502]
          else
            .halt [.chunk s.currentModel ("处理错误: " ++ msg) (some .error), .doneMark,
                   .finishCb 500]
        | .value lines => procLines cfg e.now s lines

/-- Result of a transcoder run on a trace: the emitted output events and
whether the stream was closed (a trace too short to reach a terminal
leaves the stream open). -/
structure RunOut where
  out : List OutEvent
  closed : Bool
deriving DecidableEq, Repr

/-- The main loop over the iteration trace. -/
def runLoop (cfg : StreamCfg) (s : ConvState) : List IterEvent → RunOut
  | [] => ⟨[], false⟩
  | e :: rest =>
    match stepIter cfg s e with
    | .halt out => ⟨out, true⟩
    | .cont s' out =>
      let r := runLoop cfg s' rest
      ⟨out ++ r.out, r.closed⟩

/-- `createOpenAiStreamFromGrokNdjson`: a missing upstream body emits one
error chunk plus `[DONE]` and closes (source lines 331–337, with no
`onFinish` call); otherwise the main loop runs on the trace. -/
def createOpenAiStream (cfg : StreamCfg) (body : Option (List IterEvent)) : RunOut :=
  match body with
  | none => ⟨[.chunk defaultModelName "Empty response" (some .error), .doneMark], true⟩
  | some tr => runLoop cfg (initConv cfg) tr

/-- Number of `onFinish` invocations in an output list. -/
def countFinishCb : List OutEvent → Nat
  | [] => 0
  | .finishCb _ :: rest => countFinishCb rest + 1
  | _ :: rest => countFinishCb rest

/-- Concatenation of the delta contents of all emitted chunks. -/
def deltasOf (l : List OutEvent) : String :=
  l.foldl (fun acc ev => match ev with | .chunk _ c _ => acc ++ c | _ => acc) ""

/-- Whether an output list contains a chunk with `finish_reason: "error"`. -/
def hasErrorChunk (l : List OutEvent) : Bool :=
  l.any (fun ev => match ev with | .chunk _ _ (some .error) => true | _ => false)

/-!
## Batch task manager

Shallow embedding of `class BatchTask` and `createTaskSSEStream`
(src/unnamed/part_000).  The mutable fields become a record; each method
becomes a state transformer.  Publishing to subscribers mutates no task
state (callback errors are swallowed), so subscribers are not part of
the task state.
-/

/-- `BatchTaskStatus`. -/
inductive BatchStatus where
  | running
  | done
  | error
  | cancelled
deriving DecidableEq, Repr

/-- The `type` discriminant of a `BatchTaskEvent`. -/
inductive BatchEvType where
  | progress
  | doneEv
  | errorEv
  | cancelledEv
deriving DecidableEq, Repr

/-- A `BatchTaskEvent`. Optional fields are `some` exactly when the
source sets the property; `warning` is `some w` when the property is
present with (possibly null) value `w`. The `result` map is modelled as
a key/value list. -/
structure BatchEvent where
  type : BatchEvType
  taskId : String
  total : Nat
  processed : Nat
  ok : Nat
  fail : Nat
  item : Option String := none
  detail : Option String := none
  error : Option String := none
  warning : Option (Option String) := none
  result : Option (List (String × String)) := none
deriving DecidableEq, Repr

/-- State of one `BatchTask`. -/
structure BatchTask where
  id : String
  total : Nat
  processed : Nat := 0
  ok : Nat := 0
  fail : Nat := 0
  status : BatchStatus := .running
  warning : Option String := none
  result : Option (List (String × String)) := none
  error : Option String := none
  cancelled : Bool := false
  finalEvent : Option BatchEvent := none
deriving DecidableEq, Repr

/-- `new BatchTask(total)`: counters zero, status running,
`total = Math.max(0, Math.floor(total))`; the random id is a parameter. -/
def mkBatchTask (id : String) (total : Int) : BatchTask :=
  { id := id, total := (max 0 total).toNat }

/-- `record({ok, item?, detail?, error?})`: bump `processed` and one of
`ok`/`fail`, build the `progress` event (`error` only when truthy). -/
def BatchTask.record (t : BatchTask) (okArg : Bool) (item detail : Option String)
    (err : Option String) : BatchTask × BatchEvent :=
  let t' := { t with processed := t.processed + 1
                   , ok := if okArg then t.ok + 1 else t.ok
                   , fail := if okArg then t.fail else t.fail + 1 }
  let ev : BatchEvent :=
    { type := .progress, taskId := t'.id, total := t'.total, processed := t'.processed
    , ok := t'.ok, fail := t'.fail, item := item, detail := detail
    , error := match err with | some e => if e = "" then none else some e | none => none }
  (t', ev)

/-- `finish(result, warning?)`: status `done`, store result and warning,
set `finalEvent` to the `done` event. -/
def BatchTask.finish (t : BatchTask) (result : List (String × String))
    (warning : Option String) : BatchTask :=
  let ev : BatchEvent :=
    { type := .doneEv, taskId := t.id, total := t.total, processed := t.processed
    , ok := t.ok, fail := t.fail, warning := some warning, result := some result }
  { t with status := .done, result := some result, warning := warning
         , finalEvent := some ev }

/-- `failTask(error)`: status `error`, set `finalEvent` to the `error` event. -/
def BatchTask.failTask (t : BatchTask) (err : String) : BatchTask :=
  let ev : BatchEvent :=
    { type := .errorEv, taskId := t.id, total := t.total, processed := t.processed
    , ok := t.ok, fail := t.fail, error := some err }
  { t with status := .error, error := some err, finalEvent := some ev }

/-- `cancel()`: set the flag only. -/
def BatchTask.cancel (t : BatchTask) : BatchTask :=
  { t with cancelled := true }

/-- `finishCancelled()`: status `cancelled`, set `finalEvent` to the
`cancelled` event. -/
def BatchTask.finishCancelled (t : BatchTask) : BatchTask :=
  let ev : BatchEvent :=
    { type := .cancelledEv, taskId := t.id, total := t.total, processed := t.processed
    , ok := t.ok, fail := t.fail }
  { t with status := .cancelled, finalEvent := some ev }

/-- One method call on a task. -/
inductive BatchOp where
  | record (ok : Bool) (item detail : Option String) (err : Option String)
  | finish (result : List (String × String)) (warning : Option String)
  | failTask (err : String)
  | cancel
  | finishCancelled
deriving DecidableEq, Repr

/-- Apply one method call to the task state. -/
def applyOp (t : BatchTask) : BatchOp → BatchTask
  | .record ok item detail err => (t.record ok item detail err).1
  | .finish r w => t.finish r w
  | .failTask e => t.failTask e
  | .cancel => t.cancel
  | .finishCancelled => t.finishCancelled

/-- Apply a sequence of method calls in order. -/
def applyOps (t : BatchTask) (ops : List BatchOp) : BatchTask :=
  ops.foldl applyOp t

/-- Whether a call is one of the terminal methods. -/
def BatchOp.isTerminal : BatchOp → Bool
  | .finish _ _ => true
  | .failTask _ => true
  | .finishCancelled => true
  | _ => false

/-- `snapshot()`. -/
structure BatchSnapshot where
  taskId : String
  status : BatchStatus
  total : Nat
  processed : Nat
  ok : Nat
  fail : Nat
  warning : Option String
deriving DecidableEq, Repr

/-- `BatchTask.snapshot()`. -/
def BatchTask.snapshot (t : BatchTask) : BatchSnapshot :=
  ⟨t.id, t.status, t.total, t.processed, t.ok, t.fail, t.warning⟩

/-- An SSE record written by the batch bridge: the `init` record or an
encoded task event. -/
inductive SSEOut where
  | initEv (snap : BatchSnapshot)
  | ev (e : BatchEvent)
deriving DecidableEq, Repr

/-- `createTaskSSEStream(task)` at subscription time (source lines
283–314): emit `init`; if `finalEvent` exists, emit it and close
(returning `true`); otherwise stay open, subscribed to future events. -/
def sseOpen (t : BatchTask) : List SSEOut × Bool :=
  match t.finalEvent with
  | some e => ([.initEv t.snapshot, .ev e], true)
  | none => ([.initEv t.snapshot], false)

/-!
## Settings: `cf_clearance` handling

Embedding of `stripCfPrefix` / `normalizeCfCookie` and the read/write
paths of `getSettings` / `saveSettings` (src/src/settings.ts lines
168–177, 230–237, 263–269).  Values are character lists.
-/

/-- The characters of the cookie name marker. -/
def cfMarker : List Char := "cf_clearance=".data

/-- The prefix-stripping helper of settings.ts (there named after the
cookie marker): trim, then drop one leading marker when present. -/
def stripCfValue (v : List Char) : List Char :=
  let t := jsTrimL v
  if t = [] then []
  else if cfMarker.isPrefixOf t then t.drop cfMarker.length
  else t

/-- `normalizeCfCookie(value)`: strip, then re-attach the marker when the
cleaned value is non-empty. -/
def normalizeCfCookie (v : List Char) : List Char :=
  let c := stripCfValue v
  if c = [] then [] else cfMarker ++ c

/-- The `cf_clearance` value `saveSettings` persists for the grok
section: one strip of the updated value, falling back to the current
one (source line 267). -/
def savedGrokCf (update : Option (List Char)) (cur : List Char) : List Char :=
  stripCfValue (update.getD cur)

/-- The `cf_clearance` value `getSettings` places in the merged grok
section (source line 233): one strip of the stored value. -/
def getGrokCf (stored : List Char) : List Char :=
  stripCfValue stored

/-!
## Request-log statistics

Embedding of the in-memory scan of `getRequestStats`
(src/src/repo/logs.ts lines 104–158).  A log row is the pair
`(timestamp, status)`; the hourly/daily maps become association lists
keyed by the hour/day bucket of the timestamp.  `toIsoHourKey` /
`toIsoDateKey` format the UTC hour/date; two timestamps share a
formatted key exactly when they share the floor division by the
milliseconds per hour/day, which is how the bucket keys are modelled.
The floating-point `success_rate` is modelled with rational arithmetic.
-/

/-- `isSuccessStatus`: `200 ≤ status < 400`. -/
def isSuccessStatus (status : Int) : Bool :=
  200 ≤ status && status < 400

/-- Milliseconds per hour. -/
def msPerHour : Int := 3600000

/-- Milliseconds per day. -/
def msPerDay : Int := 86400000

/-- Bucket identity of `toIsoHourKey`. -/
def hourKeyOf (ts : Int) : Int := Int.fdiv ts msPerHour

/-- Bucket identity of `toIsoDateKey`. -/
def dayKeyOf (ts : Int) : Int := Int.fdiv ts msPerDay

/-- A `{success, failed}` cell of the hourly/daily maps. -/
structure HFCount where
  succ : Nat
  fail : Nat
deriving DecidableEq, Repr

/-- `map.get(key) ?? {success:0,failed:0}`, bump one side, `map.set`. -/
def bumpKey (m : List (Int × HFCount)) (k : Int) (isSucc : Bool) : List (Int × HFCount) :=
  match m with
  | [] => [(k, if isSucc then ⟨1, 0⟩ else ⟨0, 1⟩)]
  | (k', c) :: rest =>
    if k' = k then
      (k', if isSucc then ⟨c.succ + 1, c.fail⟩ else ⟨c.succ, c.fail + 1⟩) :: rest
    else (k', c) :: bumpKey rest k isSucc

/-- Accumulator of the single scan loop: the two maps and the 24-hour
`success`/`failed` counters. -/
structure StatsAcc where
  daily : List (Int × HFCount)
  hourly : List (Int × HFCount)
  success : Nat
  failed : Nat
deriving DecidableEq, Repr

/-- Whether a row lies within the last 24 hours (`timestamp >= since24h`). -/
def in24h (now : Int) (r : Int × Int) : Bool :=
  now - msPerDay ≤ r.1

/-- One iteration of the scan loop (source lines 110–133): every row
feeds the daily map; only rows of the last 24 hours feed the hourly map
and the summary counters. -/
def scanRow (now : Int) (acc : StatsAcc) (r : Int × Int) : StatsAcc :=
  let isSucc := isSuccessStatus r.2
  let acc1 := { acc with daily := bumpKey acc.daily (dayKeyOf r.1) isSucc }
  if in24h now r then
    { acc1 with hourly := bumpKey acc1.hourly (hourKeyOf r.1) isSucc
              , success := if isSucc then acc1.success + 1 else acc1.success
              , failed := if isSucc then acc1.failed else acc1.failed + 1 }
  else acc1

/-- The full scan over the 14-day row list. -/
def statsScan (now : Int) (rows : List (Int × Int)) : StatsAcc :=
  rows.foldl (scanRow now) ⟨[], [], 0, 0⟩

/-- `success_rate = Math.round(success/total*1000)/10`, `0` when
`total = 0` (rational model of the float computation). -/
def successRateOf (success total : Nat) : ℚ :=
  if 0 < total then (round ((success * 1000 : ℚ) / total) : ℚ) / 10 else 0

/-- The `summary` object of `getRequestStats`. -/
structure StatsSummary where
  total : Nat
  success : Nat
  failed : Nat
  rate : ℚ
deriving DecidableEq, Repr

/-- `summary` derived from the scan counters (source lines 155–158). -/
def summaryOf (acc : StatsAcc) : StatsSummary :=
  ⟨acc.success + acc.failed, acc.success, acc.failed,
   successRateOf acc.success (acc.success + acc.failed)⟩

/-- The summary `getRequestStats` reports for a 14-day row list. -/
def getRequestStatsSummary (now : Int) (rows : List (Int × Int)) : StatsSummary :=
  summaryOf (statsScan now rows)

/-- Total number of row contributions recorded in a map. -/
def mapWeight (m : List (Int × HFCount)) : Nat :=
  (m.map (fun kv => kv.2.succ + kv.2.fail)).sum

/-!
## Statement-support definitions

Concrete configurations, traces, invariant predicates and counting
helpers used by the theorem statements below.
-/

/-- Per-step accounting of `onFinish`: a terminal step carries exactly
one invocation, a continuing step none. -/
def StepOut.goodCount : StepOut → Prop
  | .halt out => countFinishCb out = 1
  | .cont _ out => countFinishCb out = 0

/-- `1` on terminal steps, `0` on continuing ones. -/
def StepOut.haltCount : StepOut → Nat
  | .halt _ => 1
  | .cont _ _ => 0

/-- Number of `onFinish` invocations a step emits. -/
def StepOut.outCount : StepOut → Nat
  | .halt out => countFinishCb out
  | .cont _ out => countFinishCb out

/-- The two data-model invariants of a batch task: `processed = ok + fail`
and `finalEvent` set exactly when the status left `running`. -/
def BatchInv (t : BatchTask) : Prop :=
  t.processed = t.ok + t.fail ∧ (t.finalEvent ≠ none ↔ t.status ≠ .running)

/-- A plain text frame with a token and a thinking flag. -/
def thinkFrame (t : String) (th : Bool) : GrokFrame :=
  ⟨none, some { emptyResponse with token := .str t, isThinking := th }⟩

/-- Default-settings configuration (thinking shown). -/
def cfgShowThink : StreamCfg := mkStreamCfg {} "" "http://gw" 0

/-- Default-settings configuration with `show_thinking = false`. -/
def cfgHideThink : StreamCfg :=
  mkStreamCfg { show_thinking := some false } "" "http://gw" 0

/-- The thinking-then-answer upstream trace of scenario 1: three frames
in one read, then EOF. -/
def traceThinking : List IterEvent :=
  [⟨0, .value [some (thinkFrame "A" true), some (thinkFrame "B" true),
               some (thinkFrame "C" false)]⟩,
   ⟨0, .eof⟩]

/-- An image-mode frame whose `modelResponse` is present with an empty
`generatedImageUrls` array while a non-empty string token is present. -/
def imageFrameNoUrls : GrokFrame :=
  ⟨none, some { emptyResponse with imageAttachmentInfo := true, token := .str "x"
                                 , modelResponse := some (.arr []) }⟩

/-!
## Theorems

### Batch task invariants
-/

/-- One method call preserves the two batch-task data-model invariants. -/
theorem batchInv_applyOp (t : BatchTask) (op : BatchOp) (h : BatchInv t) :
    BatchInv (applyOp t op) := by
  obtain ⟨h1, h2⟩ := h
  cases op with
  | record ok item detail err =>
    refine ⟨?_, ?_⟩
    · by_cases hok : ok <;> simp [applyOp, BatchTask.record, hok] <;> omega
    · simpa [applyOp, BatchTask.record] using h2
  | finish r w => exact ⟨by simpa [applyOp, BatchTask.finish] using h1, by simp [applyOp, BatchTask.finish]⟩
  | failTask e => exact ⟨by simpa [applyOp, BatchTask.failTask] using h1, by simp [applyOp, BatchTask.failTask]⟩
  | cancel => exact ⟨by simpa [applyOp, BatchTask.cancel] using h1, by simpa [applyOp, BatchTask.cancel] using h2⟩
  | finishCancelled =>
    exact ⟨by simpa [applyOp, BatchTask.finishCancelled] using h1,
           by simp [applyOp, BatchTask.finishCancelled]⟩

/-- Any call sequence preserves the batch-task invariants. -/
theorem batchInv_applyOps (ops : List BatchOp) :
    ∀ t : BatchTask, BatchInv t → BatchInv (applyOps t ops) := by
  induction ops with
  | nil => intro t h; simpa [applyOps] using h
  | cons op ops ih =>
    intro t h
    simpa [applyOps] using ih (applyOp t op) (batchInv_applyOp t op h)

/-- C5: for any batch task and any sequence of `record`, `finish`,
`failTask`, `cancel`, `finishCancelled` calls, `processed = ok + fail`
holds after every operation, and `finalEvent` is non-null iff the status
is not `running`. (Quantifying over all call sequences covers every
observable moment.) -/
theorem batch_counters_and_finalEvent_invariant (id : String) (total : Int)
    (ops : List BatchOp) : BatchInv (applyOps (mkBatchTask id total) ops) :=
  batchInv_applyOps ops _ ⟨by simp [mkBatchTask], by simp [mkBatchTask]⟩

/-- C6: a subscriber arriving when `finalEvent` is already set receives
exactly two SSE records — `init` with the snapshot, then the final
event — and the stream closes, with no progress events replayed. -/
theorem late_subscriber_two_events (t : BatchTask) (e : BatchEvent)
    (h : t.finalEvent = some e) :
    sseOpen t = ([SSEOut.initEv t.snapshot, SSEOut.ev e], true) := by
  simp [sseOpen, h]

/-- Witness for C6: a task that recorded two successes and finished. -/
theorem late_subscriber_two_events_witness :
    sseOpen (applyOps (mkBatchTask "w6" 2)
        [.record true none none none, .record true none none none,
         .finish [("n", "2")] none]) =
      ([SSEOut.initEv (BatchTask.snapshot (applyOps (mkBatchTask "w6" 2)
          [.record true none none none, .record true none none none,
           .finish [("n", "2")] none])),
        SSEOut.ev { type := .doneEv, taskId := "w6", total := 2, processed := 2
                  , ok := 2, fail := 2 - 2, warning := some none
                  , result := some [("n", "2")] }], true) :=
  late_subscriber_two_events _ _ (by decide)

/-- C7 fails on the code: terminal methods overwrite `finalEvent`
unconditionally, so a `failTask` after a `finish` replaces the final
event set by the first terminal call. -/
theorem c7_finalEvent_overwritten :
    ((mkBatchTask "t7" 0).finish [] none).finalEvent ≠ none ∧
    (((mkBatchTask "t7" 0).finish [] none).failTask "boom").finalEvent ≠
      ((mkBatchTask "t7" 0).finish [] none).finalEvent := by
  decide

/-- C7 (amended): once `finalEvent` is set, it is unchanged by every
later `record` and `cancel` call; only a second terminal call (which
§4.4 of the specification forbids) can replace it. -/
theorem finalEvent_stable_under_nonterminal (t : BatchTask) (e : BatchEvent)
    (ops : List BatchOp) (hf : t.finalEvent = some e)
    (hops : ∀ op ∈ ops, op.isTerminal = false) :
    (applyOps t ops).finalEvent = some e := by
  induction ops generalizing t with
  | nil => simpa [applyOps] using hf
  | cons op ops ih =>
    have hop : op.isTerminal = false := hops op (by simp)
    have hstep : (applyOp t op).finalEvent = t.finalEvent := by
      cases op <;> simp_all [applyOp, BatchTask.record, BatchTask.cancel, BatchOp.isTerminal]
    have : applyOps t (op :: ops) = applyOps (applyOp t op) ops := by simp [applyOps]
    rw [this]
    exact ih (applyOp t op) (hstep.trans hf) (fun o ho => hops o (by simp [ho]))

/-- Witness for C7 (amended): after `finish`, a `record` and a `cancel`
leave `finalEvent` as the done event. -/
theorem finalEvent_stable_witness :
    (applyOps ((mkBatchTask "w7" 1).finish [] none)
        [.record false none none none, .cancel]).finalEvent =
      some { type := .doneEv, taskId := "w7", total := 1, processed := 0
           , ok := 0, fail := 0, warning := some none, result := some [] } :=
  finalEvent_stable_under_nonterminal _ _ _ (by decide) (by decide)

/-!
### Settings: `cf_clearance`
-/

/-- C8 fails on the code as stated: an input carrying the marker twice is
persisted still carrying it once, because the write path strips only one
leading `cf_clearance=`. -/
theorem c8_double_marker_survives_strip :
    savedGrokCf (some ("cf_clearance=cf_clearance=abc".data)) [] =
      "cf_clearance=abc".data ∧
    cfMarker.isPrefixOf
      (savedGrokCf (some ("cf_clearance=cf_clearance=abc".data)) []) = true := by
  decide

/-- C8 (amended): the value `saveSettings` persists is `stripCfValue` of
the input — one strip of a leading `cf_clearance=` — so it is
marker-free whenever the trimmed input is not doubly marked; and the
cookie exposure `normalizeCfCookie` is empty or carries exactly the
`cf_clearance=` marker in front. -/
theorem cf_strip_once_and_cookie_reprefixed (v : List Char) (cur : List Char) :
    savedGrokCf (some v) cur = stripCfValue v ∧
    ((cfMarker ++ cfMarker).isPrefixOf (jsTrimL v) = false →
      cfMarker.isPrefixOf (stripCfValue v) = false) ∧
    (normalizeCfCookie v = [] ∨ ∃ s, normalizeCfCookie v = cfMarker ++ s) := by
  refine ⟨rfl, ?_, ?_⟩
  · intro h
    have h' : ¬ (cfMarker ++ cfMarker) <+: jsTrimL v := by
      intro hp
      exact absurd (List.isPrefixOf_iff_prefix.mpr hp) (by simp [h])
    have goal' : ¬ cfMarker <+: stripCfValue v := by
      intro hp
      unfold stripCfValue at hp
      by_cases h0 : jsTrimL v = []
      · simp [h0, List.prefix_nil] at hp
        exact absurd hp (by decide)
      · by_cases h1 : cfMarker.isPrefixOf (jsTrimL v) = true
        · simp only [h0, if_neg, if_pos, h1, ite_true, ite_false] at hp
          obtain ⟨r, hr⟩ := List.isPrefixOf_iff_prefix.mp h1
          rw [← hr, List.drop_left] at hp
          obtain ⟨q, hq⟩ := hp
          exact h' ⟨q, by rw [List.append_assoc, hq, hr]⟩
        · simp only [h0, h1, ite_false] at hp
          exact h1 (List.isPrefixOf_iff_prefix.mpr hp)
    rw [← Bool.not_eq_true]
    rw [List.isPrefixOf_iff_prefix]
    exact goal'
  · unfold normalizeCfCookie
    by_cases hc : stripCfValue v = []
    · left; simp [hc]
    · right; exact ⟨stripCfValue v, by simp [hc]⟩

/-- Witness for C8 (amended): a singly-marked input is persisted
marker-free. -/
theorem cf_strip_once_witness :
    (cfMarker ++ cfMarker).isPrefixOf (jsTrimL "cf_clearance=abc".data) = false ∧
    cfMarker.isPrefixOf (stripCfValue "cf_clearance=abc".data) = false :=
  ⟨by decide, (cf_strip_once_and_cookie_reprefixed "cf_clearance=abc".data []).2.1 (by decide)⟩

/-!
### Request-log statistics
-/

/-- The 24-hour success counter of the scan counts rows of the last 24
hours with a success status. -/
theorem scan_success_count (now : Int) :
    ∀ (rows : List (Int × Int)) (acc : StatsAcc),
      (rows.foldl (scanRow now) acc).success =
        acc.success + rows.countP (fun r => in24h now r && isSuccessStatus r.2) := by
  intro rows
  induction rows with
  | nil => intro acc; simp
  | cons r rows ih =>
    intro acc
    rw [List.foldl_cons, ih, List.countP_cons]
    have : (scanRow now acc r).success =
        acc.success + (if in24h now r && isSuccessStatus r.2 then 1 else 0) := by
      unfold scanRow
      by_cases h1 : in24h now r <;> by_cases h2 : isSuccessStatus r.2 <;> simp [h1, h2]
    rw [this]
    omega

/-- The 24-hour failure counter of the scan counts rows of the last 24
hours with a non-success status. -/
theorem scan_failed_count (now : Int) :
    ∀ (rows : List (Int × Int)) (acc : StatsAcc),
      (rows.foldl (scanRow now) acc).failed =
        acc.failed + rows.countP (fun r => in24h now r && !isSuccessStatus r.2) := by
  intro rows
  induction rows with
  | nil => intro acc; simp
  | cons r rows ih =>
    intro acc
    rw [List.foldl_cons, ih, List.countP_cons]
    have : (scanRow now acc r).failed =
        acc.failed + (if in24h now r && !isSuccessStatus r.2 then 1 else 0) := by
      unfold scanRow
      by_cases h1 : in24h now r <;> by_cases h2 : isSuccessStatus r.2 <;> simp [h1, h2]
    rw [this]
    omega

/-- Bumping one key adds exactly one contribution to a map. -/
theorem mapWeight_bumpKey (k : Int) (b : Bool) :
    ∀ m : List (Int × HFCount), mapWeight (bumpKey m k b) = mapWeight m + 1 := by
  intro m
  induction m with
  | nil => cases b <;> simp [bumpKey, mapWeight]
  | cons kv rest ih =>
    obtain ⟨k', c⟩ := kv
    by_cases hk : k' = k
    · cases b <;> simp [bumpKey, hk, mapWeight] <;> omega
    · simp [bumpKey, hk, mapWeight]
      simp [mapWeight] at ih
      omega

/-- Every scanned row lands in the daily map, regardless of its age. -/
theorem scan_daily_weight (now : Int) :
    ∀ (rows : List (Int × Int)) (acc : StatsAcc),
      mapWeight ((rows.foldl (scanRow now) acc).daily) =
        mapWeight acc.daily + rows.length := by
  intro rows
  induction rows with
  | nil => intro acc; simp
  | cons r rows ih =>
    intro acc
    rw [List.foldl_cons, ih]
    have : (scanRow now acc r).daily = bumpKey acc.daily (dayKeyOf r.1) (isSuccessStatus r.2) := by
      unfold scanRow
      by_cases h1 : in24h now r <;> simp [h1]
    rw [this, mapWeight_bumpKey, List.length_cons]
    omega

/-- C10: the `summary` block of `getRequestStats` (total, success,
failed, success_rate) is computed from rows of the last 24 hours only —
it is unchanged when rows older than 24 hours are removed — while every
row of the 14-day window, including the older ones, contributes to the
daily buckets. -/
theorem stats_summary_counts_only_last24h (now : Int) (rows : List (Int × Int)) :
    getRequestStatsSummary now rows =
      getRequestStatsSummary now (rows.filter (in24h now)) ∧
    mapWeight (statsScan now rows).daily = rows.length := by
  constructor
  · have hs : (statsScan now rows).success = (statsScan now (rows.filter (in24h now))).success := by
      rw [statsScan, statsScan, scan_success_count, scan_success_count, List.countP_filter]
      have hfun : (fun a : Int × Int => in24h now a && isSuccessStatus a.2 && in24h now a) =
          (fun a : Int × Int => in24h now a && isSuccessStatus a.2) := by
        funext a; by_cases h : in24h now a <;> simp [h]
      rw [hfun]
    have hf : (statsScan now rows).failed = (statsScan now (rows.filter (in24h now))).failed := by
      rw [statsScan, statsScan, scan_failed_count, scan_failed_count, List.countP_filter]
      have hfun : (fun a : Int × Int => in24h now a && !isSuccessStatus a.2 && in24h now a) =
          (fun a : Int × Int => in24h now a && !isSuccessStatus a.2) := by
        funext a; by_cases h : in24h now a <;> simp [h]
      rw [hfun]
    rw [getRequestStatsSummary, getRequestStatsSummary, summaryOf, summaryOf, hs, hf]
  · rw [statsScan, scan_daily_weight]
    simp [mapWeight]

/-!
### Tag filter
-/

/-- C3: with configured tags `["xaiartifact"]`, the tokens
`"Hello <xai"` and `"artifact>secret</xaiartifact> World"` filter to
outputs concatenating to `"Hello  World"`; and in general a character
step emits non-empty text only as a plain character outside any tag
context, or as the whole pending buffer at the moment it is incomparable
with every configured open tag — never a still-ambiguous partial
open-tag prefix. -/
theorem tagfilter_cross_chunk_suppression :
    String.join (filterTokens ["xaiartifact"] initTagState
        ["Hello <xai", "artifact>secret</xaiartifact> World"]).2 = "Hello  World" ∧
    (∀ (tags : List String) (st : TagState) (c : Char),
      (stepChar tags st c).2 ≠ "" →
      (st.pendingBuf = "" ∧ st.inFilterTag = false ∧ c ≠ '<' ∧
        (stepChar tags st c).2 = String.singleton c) ∨
      (st.pendingBuf ≠ "" ∧ (stepChar tags st c).2 = st.pendingBuf.push c ∧
        tags.any (fun t => jsStartsWith (st.pendingBuf.push c) ("<" ++ t)) = false ∧
        tags.any (fun t => jsStartsWith ("<" ++ t) (st.pendingBuf.push c)) = false)) := by
  constructor
  · decide
  · intro tags st c hne
    by_cases hp : st.pendingBuf = ""
    · by_cases hft : st.inFilterTag = true
      · exfalso
        apply hne
        simp only [stepChar, hp, hft]
        repeat' split <;> simp_all
      · by_cases hc : c = '<'
        · exfalso
          apply hne
          simp [stepChar, hp, hft, hc]
        · left
          refine ⟨hp, by simpa using hft, hc, ?_⟩
          simp [stepChar, hp, hft, hc]
    · right
      by_cases h1 : tags.any (fun t => jsStartsWith (st.pendingBuf.push c) ("<" ++ t)) = true
      · exfalso; apply hne; simp [stepChar, hp, h1]
      · by_cases h2 : tags.any (fun t => jsStartsWith ("<" ++ t) (st.pendingBuf.push c)) = true
        · exfalso; apply hne; simp [stepChar, hp, h1, h2]
        · exact ⟨hp, by simp [stepChar, hp, h1, h2],
                 by simpa using h1, by simpa using h2⟩

/-- Witness for C3: from a pending buffer `"<a"` with tag list `["ab"]`,
the character `x` makes the buffer `"<ax"` incomparable with `"<ab"`,
and the step emits it whole. -/
theorem tagfilter_no_partial_emission_witness :
    (stepChar ["ab"] ⟨false, "", "<a"⟩ 'x').2 ≠ "" ∧
    (((⟨false, "", "<a"⟩ : TagState).pendingBuf = "" ∧
        (⟨false, "", "<a"⟩ : TagState).inFilterTag = false ∧ 'x' ≠ '<' ∧
        (stepChar ["ab"] ⟨false, "", "<a"⟩ 'x').2 = String.singleton 'x') ∨
      ((⟨false, "", "<a"⟩ : TagState).pendingBuf ≠ "" ∧
        (stepChar ["ab"] ⟨false, "", "<a"⟩ 'x').2 =
          (⟨false, "", "<a"⟩ : TagState).pendingBuf.push 'x' ∧
        (["ab"].any (fun t =>
          jsStartsWith ((⟨false, "", "<a"⟩ : TagState).pendingBuf.push 'x') ("<" ++ t))) = false ∧
        (["ab"].any (fun t =>
          jsStartsWith ("<" ++ t) ((⟨false, "", "<a"⟩ : TagState).pendingBuf.push 'x'))) = false)) :=
  ⟨by decide, tagfilter_cross_chunk_suppression.2 ["ab"] ⟨false, "", "<a"⟩ 'x' (by decide)⟩

/-!
### Streaming transcoder: scenarios
-/

/-- C2: on the frame sequence `isThinking:true,"A"`, `isThinking:true,"B"`,
`isThinking:false,"C"`, EOF, the concatenated delta contents are
`"<think>\nAB\n</think>\nC"` with `show_thinking = true` and `"C"` with
`show_thinking = false`. -/
theorem thinking_scenario_deltas :
    deltasOf (createOpenAiStream cfgShowThink (some traceThinking)).out =
      "<think>\nAB\n</think>\nC" ∧
    deltasOf (createOpenAiStream cfgHideThink (some traceThinking)).out = "C" := by
  decide

/-- C9 fails on the code: in image mode, a frame whose `modelResponse` is
present with an empty normalized URL list and which carries the
non-empty token `"x"` is skipped entirely — the `else if` that emits the
token is chained on the absence of `modelResponse`, not on the URL list
being empty — so no delta carries the token. -/
theorem c9_image_token_skipped_with_modelResponse :
    (createOpenAiStream cfgShowThink
        (some [⟨0, .value [some imageFrameNoUrls]⟩, ⟨0, .eof⟩])).out =
      [.chunk defaultModelName "" (some .stop), .doneMark, .finishCb 200] ∧
    deltasOf (createOpenAiStream cfgShowThink
        (some [⟨0, .value [some imageFrameNoUrls]⟩, ⟨0, .eof⟩])).out = "" := by
  decide

/-- C9 (amended): in image mode, when `modelResponse` is absent from the
frame, a non-empty string token is emitted as one delta chunk with the
tag-filter state untouched — no tag filtering is applied. When
`modelResponse` is present, the frame never reaches the token branch
(see the counterexample), so the amended claim conditions on its absence. -/
theorem image_token_passthrough (cfg : StreamCfg) (now : Int) (s : ConvState)
    (g : GrokResponse) (tok : String)
    (himg : s.isImage = true ∨ g.imageAttachmentInfo = true)
    (hvid : g.video = none) (hmr : g.modelResponse = none)
    (htok : g.token = .str tok) (hne : tok ≠ "") :
    ∃ m, procFrame cfg now s ⟨none, some g⟩ =
      .cont { s with firstReceived := true, lastChunkTime := now
                   , currentModel := m, isImage := true }
        [.chunk m tok none] := by
  obtain ⟨um, vid, att, tk, mr, ith, mt, tu, wr⟩ := g
  obtain ⟨fs, fr, lct, cm, ii, iv, it, tf, vps, lvp, ts⟩ := s
  simp only at hvid hmr htok himg
  subst hvid; subst hmr; subst htok
  cases um with
  | none =>
    cases att with
    | true => exact ⟨cm, by simp [procFrame, hne]⟩
    | false =>
      have hii : ii = true := by simpa using himg
      subst hii
      exact ⟨cm, by simp [procFrame, hne]⟩
  | some m0 =>
    by_cases hm : jsTrim m0 = ""
    · cases att with
      | true => exact ⟨cm, by simp [procFrame, hne, hm]⟩
      | false =>
        have hii : ii = true := by simpa using himg
        subst hii
        exact ⟨cm, by simp [procFrame, hne, hm]⟩
    · cases att with
      | true => exact ⟨jsTrim m0, by simp [procFrame, hne, hm]⟩
      | false =>
        have hii : ii = true := by simpa using himg
        subst hii
        exact ⟨jsTrim m0, by simp [procFrame, hne, hm]⟩

/-- Witness for C9 (amended): an image-mode frame without `modelResponse`
carrying the token `"a<xaiartifact>b"`; the token appears verbatim in the
delta even though it contains a configured tag. -/
theorem image_token_passthrough_witness :
    ∃ m, procFrame cfgShowThink 5 { initConv cfgShowThink with isImage := true }
        ⟨none, some { emptyResponse with token := .str "a<xaiartifact>b" }⟩ =
      .cont { initConv cfgShowThink with
                firstReceived := true, lastChunkTime := 5,
                currentModel := m, isImage := true }
        [.chunk m "a<xaiartifact>b" none] :=
  image_token_passthrough cfgShowThink 5 _ _ _ (Or.inl rfl) rfl rfl rfl (by decide)

/-- C4: in video mode the idle check uses the video idle budget. Part
one: when the idle time exceeds the video idle budget (and the total
budget has not expired), the raised idle timeout is caught and the
stream ends cleanly — exactly one empty-content stop chunk, the `[DONE]`
sentinel and `onFinish` with the preserved status, no error chunk. Part
two: when the idle time exceeds the ordinary idle budget but not the
video one, no timeout fires and the loop simply continues reading. -/
theorem video_idle_uses_video_budget :
    (∀ (cfg : StreamCfg) (s : ConvState) (e : IterEvent) (rest : List IterEvent),
      s.firstReceived = true → s.isVideo = true →
      ¬ (0 < cfg.totalMs ∧ cfg.totalMs < e.now - cfg.startTime) →
      0 < cfg.videoIdleMs → cfg.videoIdleMs < e.now - s.lastChunkTime →
      runLoop cfg s (e :: rest) =
        ⟨[.chunk s.currentModel "" (some .stop), .doneMark, .finishCb s.finalStatus],
         true⟩ ∧
      hasErrorChunk (runLoop cfg s (e :: rest)).out = false) ∧
    (∀ (cfg : StreamCfg) (s : ConvState) (e : IterEvent) (rest : List IterEvent),
      s.firstReceived = true → s.isVideo = true →
      cfg.idleMs < e.now - s.lastChunkTime →
      e.now - s.lastChunkTime ≤ cfg.videoIdleMs →
      e.now - s.lastChunkTime ≤ cfg.chunkMs →
      0 < cfg.chunkMs →
      (0 < cfg.totalMs → e.now - cfg.startTime < cfg.totalMs) →
      e.read = .value [] →
      runLoop cfg s (e :: rest) = runLoop cfg s rest) := by
  constructor
  · intro cfg s e rest hfr hvid htot hv hidle
    have hstep : stepIter cfg s e = .halt (flushOut s) := by
      simp only [stepIter]
      rw [if_neg (by simp [hfr]), if_neg htot,
          if_pos ⟨hfr, by simp [hvid]; omega, by simp [hvid]; omega⟩]
    constructor
    · unfold runLoop
      rw [hstep]
      rfl
    · unfold runLoop
      rw [hstep]
      simp [hasErrorChunk, flushOut]
  · intro cfg s e rest hfr hvid hord hvle hchle hch htot hread
    have hstep : stepIter cfg s e = .cont s [] := by
      simp only [stepIter]
      rw [if_neg (by simp [hfr]), if_neg (by intro h; exact absurd (htot h.1) (by omega)),
          if_neg (by intro h; rw [hvid] at h; simp at h; omega),
          if_neg (by intro h; omega),
          if_neg ?hper, hread]
      · rfl
      case hper =>
        rw [hfr]
        simp only [if_true]
        by_cases ht : 0 < cfg.totalMs
        · have := htot ht
          simp [ht]
          omega
        · simp [ht]
          omega
    conv_lhs => rw [runLoop]
    rw [hstep]
    simp

/-- Witness for C4: `idle = 5s`, `videoIdle = 60s`, last chunk at `t = 0`.
At `t = 70s` the video idle budget is exceeded and the stream closes
cleanly with status 200; at `t = 30s` the ordinary idle budget is
exceeded but the video one is not, and the loop continues. -/
theorem video_idle_uses_video_budget_witness :
    runLoop (mkStreamCfg { stream_idle_timeout := some 5, video_idle_timeout := some 60 }
        "" "http://gw" 0)
      { initConv (mkStreamCfg { stream_idle_timeout := some 5, video_idle_timeout := some 60 }
          "" "http://gw" 0) with firstReceived := true, isVideo := true }
      [⟨70000, .timeout⟩] =
      ⟨[.chunk defaultModelName "" (some .stop), .doneMark, .finishCb 200], true⟩ ∧
    runLoop (mkStreamCfg { stream_idle_timeout := some 5, video_idle_timeout := some 60 }
        "" "http://gw" 0)
      { initConv (mkStreamCfg { stream_idle_timeout := some 5, video_idle_timeout := some 60 }
          "" "http://gw" 0) with firstReceived := true, isVideo := true }
      [⟨30000, .value []⟩, ⟨30000, .eof⟩] =
      runLoop (mkStreamCfg { stream_idle_timeout := some 5, video_idle_timeout := some 60 }
          "" "http://gw" 0)
        { initConv (mkStreamCfg { stream_idle_timeout := some 5, video_idle_timeout := some 60 }
            "" "http://gw" 0) with firstReceived := true, isVideo := true }
        [⟨30000, .eof⟩] :=
  ⟨(video_idle_uses_video_budget.1 _ _ _ _ rfl rfl (by decide) (by decide) (by decide)).1,
   video_idle_uses_video_budget.2 _ _ _ _ rfl rfl (by decide) (by decide) (by decide)
     (by decide) (by decide) rfl⟩

/-!
### Streaming transcoder: `onFinish` accounting
-/

/-- `countFinishCb` distributes over append. -/
theorem countFinishCb_append (a b : List OutEvent) :
    countFinishCb (a ++ b) = countFinishCb a + countFinishCb b := by
  induction a with
  | nil => simp [countFinishCb]
  | cons x rest ih => cases x <;> simp [countFinishCb, ih] <;> omega

/-- A video frame's output carries no `onFinish` invocation. -/
theorem procVideo_count (cfg : StreamCfg) (s : ConvState) (v : VideoResp) :
    countFinishCb (procVideo cfg s v).2 = 0 := by
  simp only [procVideo]
  repeat' split <;> simp [countFinishCb, countFinishCb_append]

/-- Text-mode token handling emits no `onFinish`. -/
theorem procText_outCount0 (cfg : StreamCfg) (s : ConvState) (g : GrokResponse)
    (ct : Bool) (tok : String) : (procText cfg s g ct tok).outCount = 0 := by
  by_cases h1 : (g.toolUsageCardId && g.webResults.isSome) = true <;>
  by_cases h2 : ct = true <;>
  by_cases h3 : cfg.showThinking = true <;>
    (simp [procText, h1, h2, h3, StepOut.outCount, countFinishCb]
     try split_ifs <;> simp [StepOut.outCount, countFinishCb])

/-- Text-mode token handling never terminates the stream. -/
theorem procText_haltCount0 (cfg : StreamCfg) (s : ConvState) (g : GrokResponse)
    (ct : Bool) (tok : String) : (procText cfg s g ct tok).haltCount = 0 := by
  by_cases h1 : (g.toolUsageCardId && g.webResults.isSome) = true <;>
  by_cases h2 : ct = true <;>
  by_cases h3 : cfg.showThinking = true <;>
    (simp [procText, h1, h2, h3, StepOut.haltCount, countFinishCb]
     try split_ifs <;> simp [StepOut.haltCount, countFinishCb])

set_option maxHeartbeats 1000000 in
/-- Per-frame accounting: the number of `onFinish` invocations a frame
emits is one exactly when the frame terminates the stream. -/
theorem procFrame_outCount (cfg : StreamCfg) (now : Int) (s : ConvState) (f : GrokFrame) :
    (procFrame cfg now s f).outCount = (procFrame cfg now s f).haltCount := by
  obtain ⟨em, resp⟩ := f
  cases em with
  | some m => simp [procFrame, StepOut.outCount, StepOut.haltCount, countFinishCb]
  | none =>
    cases resp with
    | none => simp [procFrame, StepOut.outCount, StepOut.haltCount, countFinishCb]
    | some g =>
      obtain ⟨um, vid, att, tk, mr, ith, mt, tu, wr⟩ := g
      cases um <;> cases vid <;> cases att <;> cases tk <;> cases mr <;>
        (simp only [procFrame]
         (try split_ifs) <;>
           first
             | (simp [StepOut.outCount, StepOut.haltCount, countFinishCb,
                      procVideo_count, procText_outCount0, procText_haltCount0]
                done)
             | exact (procText_outCount0 _ _ _ _ _).trans
                 (procText_haltCount0 _ _ _ _ _).symm)

/-- `StepOut.goodCount` form of the per-frame accounting. -/
theorem procFrame_goodCount (cfg : StreamCfg) (now : Int) (s : ConvState)
    (f : GrokFrame) : (procFrame cfg now s f).goodCount := by
  have h := procFrame_outCount cfg now s f
  cases hpf : procFrame cfg now s f <;> rw [hpf] at h <;>
    simpa [StepOut.goodCount, StepOut.outCount, StepOut.haltCount] using h

/-- Per-read accounting over the delivered lines. -/
theorem procLines_goodCount (cfg : StreamCfg) (now : Int) :
    ∀ (ls : List (Option GrokFrame)) (s : ConvState),
      (procLines cfg now s ls).goodCount := by
  intro ls
  induction ls with
  | nil => intro s; simp [procLines, StepOut.goodCount, countFinishCb]
  | cons hd tl ih =>
    intro s
    cases hd with
    | none => simpa [procLines] using ih s
    | some f =>
      have hf := procFrame_goodCount cfg now s f
      rw [procLines]
      cases hpf : procFrame cfg now s f with
      | halt out =>
        rw [hpf] at hf
        simpa [StepOut.goodCount] using hf
      | cont s' out =>
        rw [hpf] at hf
        simp only [StepOut.goodCount] at hf
        have ht := ih s'
        cases hpl : procLines cfg now s' tl with
        | halt out2 =>
          rw [hpl] at ht
          simp only [StepOut.goodCount] at ht
          simp [hpl, StepOut.goodCount, countFinishCb_append, hf, ht]
        | cont s2 out2 =>
          rw [hpl] at ht
          simp only [StepOut.goodCount] at ht
          simp [hpl, StepOut.goodCount, countFinishCb_append, hf, ht]

/-- Equation form of the per-read accounting. -/
theorem procLines_outCount (cfg : StreamCfg) (now : Int) (ls : List (Option GrokFrame))
    (s : ConvState) :
    (procLines cfg now s ls).outCount = (procLines cfg now s ls).haltCount := by
  have h := procLines_goodCount cfg now ls s
  cases hp : procLines cfg now s ls <;> rw [hp] at h <;>
    simpa [StepOut.goodCount, StepOut.outCount, StepOut.haltCount] using h

/-- Per-iteration accounting (equation form). -/
theorem stepIter_outCount (cfg : StreamCfg) (s : ConvState) (e : IterEvent) :
    (stepIter cfg s e).outCount = (stepIter cfg s e).haltCount := by
  obtain ⟨now, rd⟩ := e
  cases rd <;>
    (simp only [stepIter]
     (try split_ifs) <;>
       first
         | (simp [StepOut.outCount, StepOut.haltCount, countFinishCb, flushOut]
            done)
         | exact procLines_outCount cfg now _ _)

/-- Per-iteration accounting: a terminal iteration reports `onFinish`
exactly once, a continuing one not at all. -/
theorem stepIter_goodCount (cfg : StreamCfg) (s : ConvState) (e : IterEvent) :
    (stepIter cfg s e).goodCount := by
  have h := stepIter_outCount cfg s e
  cases hst : stepIter cfg s e <;> rw [hst] at h <;>
    simpa [StepOut.goodCount, StepOut.outCount, StepOut.haltCount] using h

/-- Whenever the main loop closes the stream, the output carries exactly
one `onFinish` invocation. -/
theorem runLoop_onfinish (cfg : StreamCfg) :
    ∀ (tr : List IterEvent) (s : ConvState),
      (runLoop cfg s tr).closed = true → countFinishCb (runLoop cfg s tr).out = 1 := by
  intro tr
  induction tr with
  | nil => intro s h; simp [runLoop] at h
  | cons e rest ih =>
    intro s h
    have hg := stepIter_goodCount cfg s e
    rw [runLoop] at h ⊢
    cases hst : stepIter cfg s e with
    | halt out =>
      rw [hst] at hg
      simpa [StepOut.goodCount] using hg
    | cont s' out =>
      rw [hst] at hg
      simp only [StepOut.goodCount] at hg
      have hc : (runLoop cfg s' rest).closed = true := by simpa [hst] using h
      simpa [countFinishCb_append, hg] using ih s' hc

/-- C1 (amended): whenever a transcoder run over an upstream body reaches
a terminal path — normal EOF, first-response timeout, total timeout,
idle timeout, chunk backstop, per-read timeout, upstream error frame, or
a read exception — `onFinish` is invoked exactly once; on the
missing-upstream-body path, however, the stream closes without invoking
`onFinish` at all. -/
theorem onFinish_exactly_once :
    (∀ (cfg : StreamCfg) (tr : List IterEvent),
      (createOpenAiStream cfg (some tr)).closed = true →
      countFinishCb (createOpenAiStream cfg (some tr)).out = 1) ∧
    (∀ cfg : StreamCfg, (createOpenAiStream cfg none).closed = true ∧
      countFinishCb (createOpenAiStream cfg none).out = 0) := by
  constructor
  · intro cfg tr h
    exact runLoop_onfinish cfg tr (initConv cfg) h
  · intro cfg
    exact ⟨rfl, rfl⟩

/-- Witness for C1 (amended): immediate upstream EOF closes the stream
with exactly one `onFinish`. -/
theorem onFinish_exactly_once_witness :
    (createOpenAiStream cfgShowThink (some [⟨0, .eof⟩])).closed = true ∧
    countFinishCb (createOpenAiStream cfgShowThink (some [⟨0, .eof⟩])).out = 1 :=
  ⟨by decide, onFinish_exactly_once.1 cfgShowThink [⟨0, .eof⟩] (by decide)⟩

/-- C1 fails as stated on one listed terminal path: when the upstream
response has no body, the stream emits an error chunk and `[DONE]` and
closes without ever invoking `onFinish`. -/
theorem c1_missing_body_no_onfinish :
    (createOpenAiStream cfgShowThink none).closed = true ∧
    countFinishCb (createOpenAiStream cfgShowThink none).out ≠ 1 := by
  decide
